import Mathlib

/-!
Verification of `osmnx/folium.py`: interactive Leaflet web maps of graphs
and routes via folium.  The module is shallowly embedded: the graph, the
edge table, the folium map objects and the JSON string serialization are
explicit Lean data, Python exceptions are the `Except Err` monad, and the
two public entry points `plot_graph_folium` / `plot_route_folium` together
with the internal `_plot_folium` and `_make_folium_polyline` are translated
function by function from the source.
-/

set_option linter.unusedVariables false

namespace Osmnx

/-- Node identifiers of the multidigraph. -/
abbrev Node := Nat

/-- Keys distinguishing parallel edges between the same node pair. -/
abbrev EdgeKey := Nat

/-- A planar coordinate pair in the geometry's native (x = lon, y = lat) order.
Coordinates are embedded as integers: no claim depends on fractional values. -/
abbrev Point := Int × Int

/-- Attribute data carried by one edge: its LineString geometry (an ordered
list of (x, y) points), the numeric `length` attribute (`none` models the
attribute being absent from the edge's attribute dict), and the remaining
named attributes (popup candidates) as string key/value pairs. -/
structure EdgeData where
  geometry : List Point
  length : Option Int
  attrs : List (String × String)
deriving DecidableEq, Inhabited, Repr

/-- One edge of a `networkx.MultiDiGraph`: source node, target node,
parallel-edge key, and the edge attribute data. -/
structure Edge where
  u : Node
  v : Node
  key : EdgeKey
  data : EdgeData
deriving DecidableEq, Inhabited, Repr

/-- A `networkx.MultiDiGraph`, embedded as its edge list in insertion
(iteration) order. -/
structure MultiDiGraph where
  edges : List Edge
deriving DecidableEq, Inhabited, Repr

/-- A multidigraph is well formed when no (u, v, key) triple occurs twice;
`networkx` guarantees this invariant for every real graph. -/
def MultiDiGraph.wfKeys (G : MultiDiGraph) : Prop :=
  (G.edges.map (fun e => (e.u, e.v, e.key))).Nodup

instance (G : MultiDiGraph) : Decidable G.wfKeys := by
  unfold MultiDiGraph.wfKeys; infer_instance

/-- The adjacency view `G[u][v]`: the (key, data) pairs of all parallel
edges from `u` to `v`, in edge iteration order.  `G[u][v]` in Python raises
`KeyError` when there is no such edge; here that case is the empty list,
and the callers below raise accordingly. -/
def MultiDiGraph.adj (G : MultiDiGraph) (u v : Node) : List (EdgeKey × EdgeData) :=
  G.edges.filterMap (fun e =>
    if e.u = u ∧ e.v = v then some (e.key, e.data) else none)

/-- Modelled from the spec: `G.subgraph(route)` of the external graph
collaborator — the subgraph induced on a node list keeps exactly the edges
whose two endpoints both lie in the list. -/
def MultiDiGraph.subgraph (G : MultiDiGraph) (nodes : List Node) : MultiDiGraph :=
  ⟨G.edges.filter (fun e => decide (e.u ∈ nodes) && decide (e.v ∈ nodes))⟩

/-- One row of the edge GeoDataFrame: (u, v, key) index plus the edge's
geometry and attributes. -/
structure Row where
  u : Node
  v : Node
  key : EdgeKey
  data : EdgeData
deriving DecidableEq, Inhabited, Repr

/-- Modelled from the spec: the edge-table collaborator
`utils_graph.graph_to_gdfs(G, nodes=False)` (this repository's converter,
not part of the plotting source file) — one row per edge, carrying the
`geometry` column and all edge attributes, in the graph's edge iteration
order, indexable by (u, v, key) triples. -/
def graph_to_gdfs (G : MultiDiGraph) : List Row :=
  G.edges.map (fun e => ⟨e.u, e.v, e.key, e.data⟩)

/-- The Python exceptions the module can raise. -/
inductive Err where
  /-- models the `ImportError` raised when folium is not installed -/
  | unavailableError (msg : String)
  /-- models `KeyError` surfaced from graph / table / attribute access -/
  | keyError
  /-- models the error raised by the shapely collaborator when the centroid
  of an empty geometry union is indexed -/
  | emptyGeometry
deriving DecidableEq, Inhabited, Repr

/-- The message of the `ImportError` raised by `_plot_folium`. -/
def unavailableMsg : String := "folium must be installed to use this optional feature"

/-- `mapME f l` runs `f` left to right, stopping at the first error —
the Except-monad `mapM`, written as explicit recursion. -/
def mapME {α β : Type} (f : α → Except Err β) : List α → Except Err (List β)
  | [] => .ok []
  | a :: as =>
    match f a with
    | .error e => .error e
    | .ok b =>
      match mapME f as with
      | .error e => .error e
      | .ok bs => .ok (b :: bs)

/-- Python's `min` over a nonempty sequence: fold keeping the current best,
replacing it only on a strictly smaller comparison value, so ties go to the
first minimum encountered. -/
def pyMin : (EdgeKey × Int) → List (EdgeKey × Int) → (EdgeKey × Int)
  | best, [] => best
  | best, x :: rest => if x.2 < best.2 then pyMin x rest else pyMin best rest

/-- The `length` comparison value of an adjacency entry (defaulted; every
use below is guarded by the attribute being present). -/
def lenD (e : EdgeKey × EdgeData) : Int := e.2.length.getD 0

/-- Evaluation of `G[u][v][k]["length"]`, the `key` function of the `min`
call, on one adjacency entry: `KeyError` when the attribute is absent. -/
def lenStep (e : EdgeKey × EdgeData) : Except Err (EdgeKey × Int) :=
  match e.2.length with
  | some L => .ok (e.1, L)
  | none => .error Err.keyError

/-- `min(G[u][v], key=lambda k: G[u][v][k]["length"])` over the adjacency
`G[u][v]` given as `es`: `KeyError` when the adjacency is missing (empty)
or when some parallel edge lacks the `length` attribute, else the key of
the first minimum-length edge in iteration order. -/
def minLengthKey (es : List (EdgeKey × EdgeData)) : Except Err EdgeKey :=
  match mapME lenStep es with
  | .error e => .error e
  | .ok [] => .error Err.keyError
  | .ok (x :: xs) => .ok (pyMin x xs).1

/-- `zip(route[:-1], route[1:])`: the consecutive node pairs of a route. -/
def consecutivePairs (route : List Node) : List (Node × Node) :=
  route.dropLast.zip route.tail

/-- One element of the route-edge selection: the minimum-`length` parallel
edge key of one consecutive pair. -/
def routeStep (G : MultiDiGraph) (p : Node × Node) : Except Err (Node × Node × EdgeKey) :=
  match minLengthKey (G.adj p.1 p.2) with
  | .error e => .error e
  | .ok k => .ok (p.1, p.2, k)

/-- The generator `((u, v, min(G[u][v], key=...)) for u, v in node_pairs)`
of `plot_route_folium`, fully evaluated: for each consecutive pair the
minimum-`length` parallel edge key is selected. -/
def routeUVK (G : MultiDiGraph) (route : List Node) :
    Except Err (List (Node × Node × EdgeKey)) :=
  mapME (routeStep G) (consecutivePairs route)

/-- Whether a row's (u, v, key) index equals a given triple. -/
def rowMatch (t : Node × Node × EdgeKey) (r : Row) : Bool :=
  r.u == t.1 && r.v == t.2.1 && r.key == t.2.2

/-- Selection of the row of one (u, v, key) triple from the table. -/
def locStep (table : List Row) (t : Node × Node × EdgeKey) : Except Err Row :=
  match table.find? (rowMatch t) with
  | some r => .ok r
  | none => .error Err.keyError

/-- Modelled from the spec: `.loc[uvk]` of the table collaborator — select
the row of each (u, v, key) triple in order, `KeyError` when a triple is
not in the index. -/
def locTriples (table : List Row) (uvk : List (Node × Node × EdgeKey)) :
    Except Err (List Row) :=
  mapME (locStep table) uvk

/-- A folium `Popup`: its html text payload. -/
structure Popup where
  html : String
deriving DecidableEq, Inhabited, Repr

/-- A folium `PolyLine`: the (lat, lon) location list, the optional popup,
the explicit style parameters and the pass-through keyword options. -/
structure PolyLine where
  locations : List Point
  popup : Option Popup
  color : String
  weight : Int
  opacity : Int
  kwargs : List (String × String)
deriving DecidableEq, Inhabited, Repr

/-- A folium `Map`: center location and zoom fixed at creation, the tileset,
the child polylines, and the viewport rectangle set by `fit_bounds` (if
any), as (southwest, northeast) corners. -/
structure FoliumMap where
  location : Point
  zoom_start : Int
  tiles : String
  children : List PolyLine
  fitted_bounds : Option (Point × Point)
deriving DecidableEq, Inhabited, Repr

/-- A folium `FeatureGroup` sub-layer: only a list of children; it has no
viewport of its own, so no bounds fitting applies to it. -/
structure FeatureGroup where
  children : List PolyLine
deriving DecidableEq, Inhabited, Repr

/-- The map object `m` handled by `_plot_folium`: a top-level `folium.Map`
or a `folium.FeatureGroup` sub-layer. -/
inductive MapObj where
  | map : FoliumMap → MapObj
  | featureGroup : FeatureGroup → MapObj
deriving DecidableEq, Inhabited, Repr

/-- The children of either kind of map object. -/
def MapObj.children : MapObj → List PolyLine
  | .map fm => fm.children
  | .featureGroup fg => fg.children

/-- The stored center of a map object, when it has one. -/
def MapObj.centerOf : MapObj → Option Point
  | .map fm => some fm.location
  | .featureGroup _ => none

/-- The stored zoom of a map object, when it has one. -/
def MapObj.zoomOf : MapObj → Option Int
  | .map fm => some fm.zoom_start
  | .featureGroup _ => none

/-- Whether a map object is a top-level `folium.Map`. -/
def MapObj.isTopLevel : MapObj → Bool
  | .map _ => true
  | .featureGroup _ => false

/-- The children of an optional preexisting map object (none yet when a
fresh map will be created). -/
def initChildren : Option MapObj → List PolyLine
  | none => []
  | some mo => mo.children

/-- Hexadecimal digit characters as produced by Python's json encoder
(lowercase). -/
def hexDigitChar (n : Nat) : Char :=
  if n < 10 then Char.ofNat (48 + n) else Char.ofNat (87 + n)

/-- A `\uXXXX` escape for a code unit below 0x10000. -/
def uEscape4 (n : Nat) : List Char :=
  ['\\', 'u', hexDigitChar (n / 4096 % 16), hexDigitChar (n / 256 % 16),
    hexDigitChar (n / 16 % 16), hexDigitChar (n % 16)]

/-- Modelled from the spec: how `json.dumps` (standard-library collaborator)
escapes one character of a string with `ensure_ascii` defaults — `"` and
`\` are backslash-escaped, the named control escapes are used for
\b \t \n \f \r, remaining control characters and all non-ASCII characters
become `\uXXXX` escapes (a surrogate pair above 0xFFFF), and printable
ASCII is kept literal. -/
def escapeChar (c : Char) : List Char :=
  if c = '"' then ['\\', '"']
  else if c = '\\' then ['\\', '\\']
  else if c = '\n' then ['\\', 'n']
  else if c = '\r' then ['\\', 'r']
  else if c = '\t' then ['\\', 't']
  else if c.toNat = 8 then ['\\', 'b']
  else if c.toNat = 12 then ['\\', 'f']
  else if c.toNat < 32 ∨ (126 < c.toNat ∧ c.toNat < 65536) then uEscape4 c.toNat
  else if 65536 ≤ c.toNat then
    uEscape4 (55296 + (c.toNat - 65536) / 1024) ++ uEscape4 (56320 + (c.toNat - 65536) % 1024)
  else [c]

/-- Modelled from the spec: `json.dumps` of a Python string — the escaped
characters wrapped in double quotes. -/
def json_dumps (s : String) : String :=
  ⟨'"' :: (s.data.map escapeChar).flatten ++ ['"']⟩

/-- Decode one hexadecimal digit character. -/
def decodeHexDigit (c : Char) : Option Nat :=
  if 48 ≤ c.toNat ∧ c.toNat ≤ 57 then some (c.toNat - 48)
  else if 97 ≤ c.toNat ∧ c.toNat ≤ 102 then some (c.toNat - 87)
  else if 65 ≤ c.toNat ∧ c.toNat ≤ 70 then some (c.toNat - 55)
  else none

/-- Decode four hexadecimal digit characters into a code unit. -/
def decodeHex4 (a b c d : Char) : Option Nat :=
  match decodeHexDigit a, decodeHexDigit b, decodeHexDigit c, decodeHexDigit d with
  | some x, some y, some z, some w => some (x * 4096 + y * 256 + z * 16 + w)
  | _, _, _, _ => none

/-- JSON string-body decoder (fuel-indexed; one fuel unit per decoded
character suffices because every step consumes a whole escape group).
Returns the decoded characters once the closing quote is reached with no
trailing input. -/
def jsonDecodeAux : Nat → List Char → Option (List Char)
  | 0, _ => none
  | _ + 1, [] => none
  | fuel + 1, c :: rest =>
    if c = '"' then (if rest.isEmpty then some [] else none)
    else if c = '\\' then
      match rest with
      | [] => none
      | e :: rest2 =>
        if e = '"' then (jsonDecodeAux fuel rest2).map (fun l => '"' :: l)
        else if e = '\\' then (jsonDecodeAux fuel rest2).map (fun l => '\\' :: l)
        else if e = '/' then (jsonDecodeAux fuel rest2).map (fun l => '/' :: l)
        else if e = 'n' then (jsonDecodeAux fuel rest2).map (fun l => '\n' :: l)
        else if e = 'r' then (jsonDecodeAux fuel rest2).map (fun l => '\r' :: l)
        else if e = 't' then (jsonDecodeAux fuel rest2).map (fun l => '\t' :: l)
        else if e = 'b' then (jsonDecodeAux fuel rest2).map (fun l => Char.ofNat 8 :: l)
        else if e = 'f' then (jsonDecodeAux fuel rest2).map (fun l => Char.ofNat 12 :: l)
        else if e = 'u' then
          match rest2 with
          | a :: b :: c2 :: d :: rest3 =>
            match decodeHex4 a b c2 d with
            | none => none
            | some n =>
              if n < 55296 ∨ (57343 < n ∧ n < 65536) then
                (jsonDecodeAux fuel rest3).map (fun l => Char.ofNat n :: l)
              else if n < 56320 then
                match rest3 with
                | '\\' :: 'u' :: a2 :: b2 :: c3 :: d2 :: rest4 =>
                  match decodeHex4 a2 b2 c3 d2 with
                  | some mm =>
                    if 56320 ≤ mm ∧ mm < 57344 then
                      (jsonDecodeAux fuel rest4).map
                        (fun l => Char.ofNat (65536 + (n - 55296) * 1024 + (mm - 56320)) :: l)
                    else none
                  | none => none
                | _ => none
              else none
          | _ => none
        else none
    else (jsonDecodeAux fuel rest).map (fun l => c :: l)

/-- Modelled from the spec: `json.loads` of a JSON string literal — the
inverse textual decoding whose existence makes the popup payload lossless. -/
def json_loads (s : String) : Option String :=
  match s.data with
  | '"' :: rest => (jsonDecodeAux (rest.length + 1) rest).map (fun l => ⟨l⟩)
  | _ => none

/-- `_make_folium_polyline(geom, color, weight, opacity, popup_val, **kwargs)`:
reverse each coordinate pair from (lon, lat) to (lat, lon) keeping the
sequence order, serialize the popup value with `json.dumps` when present,
and build the styled polyline. -/
def _make_folium_polyline (geom : List Point) (color : String) (weight opacity : Int)
    (popup_val : Option String) (kwargs : List (String × String)) : PolyLine :=
  { locations := geom.map (fun p => (p.2, p.1))
    popup := popup_val.map (fun v => ⟨json_dumps v⟩)
    color := color
    weight := weight
    opacity := opacity
    kwargs := kwargs }

/-- All geometry points of a GeoDataFrame, in row then vertex order. -/
def allPoints (gdf : List Row) : List Point :=
  (gdf.map (fun r => r.data.geometry)).flatten

/-- Modelled from the spec: `gdf.unary_union.centroid.xy` plus the `[0]`
indexing (shapely collaborator) — indexing the centroid coordinates of an
empty geometry union fails; for a nonempty union a centroid point is
produced (embedded as the integer mean; no claim inspects the value), in
(y, x) = (lat, lon) order as the source builds `centroid = (y[0], x[0])`. -/
def unionCentroid (gdf : List Row) : Except Err Point :=
  match allPoints gdf with
  | [] => .error Err.emptyGeometry
  | p :: ps =>
    .ok (((p :: ps).map Prod.snd).foldl (· + ·) 0 / (p :: ps).length,
      ((p :: ps).map Prod.fst).foldl (· + ·) 0 / (p :: ps).length)

/-- Modelled from the spec: `gdf.total_bounds` (geopandas collaborator) —
the four numeric bounds (min-x, min-y, max-x, max-y) over the full
geometry set, `none` when there are no points. -/
def total_bounds (gdf : List Row) : Option (Int × Int × Int × Int) :=
  match allPoints gdf with
  | [] => none
  | p :: ps =>
    some ((ps.map Prod.fst).foldl min p.1, (ps.map Prod.snd).foldl min p.2,
      (ps.map Prod.fst).foldl max p.1, (ps.map Prod.snd).foldl max p.2)

/-- The popup value of one row for `gdf[attrs]` column selection: `none`
requested when `popup_attribute` is None, else the row's value of that
attribute, whose absence is a lookup error. -/
def rowPopupVal (r : Row) : Option String → Except Err (Option String)
  | none => .ok none
  | some a =>
    match r.data.attrs.lookup a with
    | some v => .ok (some v)
    | none => .error Err.keyError

/-- One iteration of the `_plot_folium` loop: resolve the row's popup value
and build its polyline via `_make_folium_polyline`. -/
def plStep (popup_attribute : Option String) (color : String) (weight opacity : Int)
    (kwargs : List (String × String)) (r : Row) : Except Err PolyLine :=
  match rowPopupVal r popup_attribute with
  | .error e => .error e
  | .ok pv => .ok (_make_folium_polyline r.data.geometry color weight opacity pv kwargs)

/-- The loop of `_plot_folium` building one polyline per row via
`_make_folium_polyline`. -/
def buildPolylines (gdf : List Row) (popup_attribute : Option String) (color : String)
    (weight opacity : Int) (kwargs : List (String × String)) : Except Err (List PolyLine) :=
  mapME (plStep popup_attribute color weight opacity kwargs) gdf

/-- `folium.Map(location=centroid, zoom_start=zoom, tiles=tiles)` when no
map was passed in, else the passed-in map object. -/
def initialMap (m : Option MapObj) (centroid : Point) (zoom : Int) (tiles : String) : MapObj :=
  match m with
  | none => .map ⟨centroid, zoom, tiles, [], none⟩
  | some mm => mm

/-- `pl.add_to(m)` for every built polyline, in row order. -/
def addPolylines : MapObj → List PolyLine → MapObj
  | .map fm, pls => .map { fm with children := fm.children ++ pls }
  | .featureGroup fg, pls => .featureGroup ⟨fg.children ++ pls⟩

/-- `if fit_bounds and isinstance(m, folium.Map): m.fit_bounds([(tb[1], tb[0]),
(tb[3], tb[2])])` — set the viewport to (southwest, northeast) corners in
(lat, lon) order; a FeatureGroup is left untouched. -/
def applyFitBounds (fit_bounds : Bool) (gdf : List Row) : MapObj → MapObj
  | .map fm =>
    if fit_bounds then
      match total_bounds gdf with
      | some (minx, miny, maxx, maxy) =>
        .map { fm with fitted_bounds := some ((miny, minx), (maxy, maxx)) }
      | none => .map fm
    else .map fm
  | .featureGroup fg => .featureGroup fg

/-- `_plot_folium(gdf, m, popup_attribute, tiles, zoom, fit_bounds, color,
weight, opacity, **kwargs)`: check folium availability, compute the union
centroid, create the map if none was passed, build and add one polyline
per row, then fit bounds on a top-level map.  `foliumAvailable` embeds the
module-level `folium is None` state of the guarded import. -/
def _plot_folium (foliumAvailable : Bool) (gdf : List Row) (m : Option MapObj)
    (popup_attribute : Option String) (tiles : String) (zoom : Int) (fit_bounds : Bool)
    (color : String) (weight opacity : Int) (kwargs : List (String × String)) :
    Except Err MapObj :=
  if foliumAvailable then
    match unionCentroid gdf with
    | .error e => .error e
    | .ok centroid =>
      match buildPolylines gdf popup_attribute color weight opacity kwargs with
      | .error e => .error e
      | .ok pls =>
        .ok (applyFitBounds fit_bounds gdf (addPolylines (initialMap m centroid zoom tiles) pls))
  else .error (Err.unavailableError unavailableMsg)

/-- `plot_graph_folium`: build the GeoDataFrame of all graph edges, then
delegate to `_plot_folium`. -/
def plot_graph_folium (foliumAvailable : Bool) (G : MultiDiGraph) (graph_map : Option MapObj)
    (popup_attribute : Option String) (tiles : String) (zoom : Int) (fit_bounds : Bool)
    (edge_color : String) (edge_width edge_opacity : Int)
    (kwargs : List (String × String)) : Except Err MapObj :=
  _plot_folium foliumAvailable (graph_to_gdfs G) graph_map popup_attribute tiles zoom
    fit_bounds edge_color edge_width edge_opacity kwargs

/-- `plot_route_folium`: select, for each consecutive route pair, the
minimum-`length` parallel edge, build the route's edge GeoDataFrame in
route order via `.loc`, then delegate to `_plot_folium`. -/
def plot_route_folium (foliumAvailable : Bool) (G : MultiDiGraph) (route : List Node)
    (route_map : Option MapObj) (popup_attribute : Option String) (tiles : String)
    (zoom : Int) (fit_bounds : Bool) (route_color : String) (route_width route_opacity : Int)
    (kwargs : List (String × String)) : Except Err MapObj :=
  match routeUVK G route with
  | .error e => .error e
  | .ok uvk =>
    match locTriples (graph_to_gdfs (G.subgraph route)) uvk with
    | .error e => .error e
    | .ok gdf_edges =>
      _plot_folium foliumAvailable gdf_edges route_map popup_attribute tiles zoom
        fit_bounds route_color route_width route_opacity kwargs

/-- The popup-attribute accesses of every row of a table succeed (trivial
when no popup attribute is requested). -/
def popupOk (gdf : List Row) : Option String → Prop
  | none => True
  | some a => ∀ r ∈ gdf, (r.data.attrs.lookup a).isSome = true

instance (gdf : List Row) (pa : Option String) : Decidable (popupOk gdf pa) := by
  unfold popupOk
  match pa with
  | none => exact inferInstance
  | some a => exact inferInstance

/-- The popup value `_plot_folium` hands to `_make_folium_polyline` for one
row on the success path. -/
def popupValOf (r : Row) : Option String → Option String
  | none => none
  | some a => r.data.attrs.lookup a

/-! ### Lemmas about `mapME` -/

theorem mapME_length {α β : Type} (f : α → Except Err β) :
    ∀ (l : List α) (bs : List β), mapME f l = .ok bs → bs.length = l.length := by
  intro l
  induction l with
  | nil => intro bs h; simp [mapME] at h; simp [← h]
  | cons a as ih =>
    intro bs h
    unfold mapME at h
    cases hfa : f a with
    | error e => rw [hfa] at h; exact absurd h (by simp)
    | ok b =>
      rw [hfa] at h
      cases hrec : mapME f as with
      | error e => rw [hrec] at h; exact absurd h (by simp)
      | ok bs2 =>
        rw [hrec] at h
        simp at h
        subst h
        simp [ih bs2 hrec]

theorem mapME_getElem? {α β : Type} (f : α → Except Err β) :
    ∀ (l : List α) (bs : List β), mapME f l = .ok bs →
      ∀ (j : Nat) (a : α) (b : β), l[j]? = some a → bs[j]? = some b → f a = .ok b := by
  intro l
  induction l with
  | nil => intro bs h j a b ha hb; simp at ha
  | cons x xs ih =>
    intro bs h j a b ha hb
    unfold mapME at h
    cases hfa : f x with
    | error e => rw [hfa] at h; exact absurd h (by simp)
    | ok b0 =>
      rw [hfa] at h
      cases hrec : mapME f xs with
      | error e => rw [hrec] at h; exact absurd h (by simp)
      | ok bs2 =>
        rw [hrec] at h
        simp at h
        subst h
        cases j with
        | zero =>
          simp at ha hb
          rw [← ha, ← hb]
          exact hfa
        | succ j2 =>
          simp at ha hb
          exact ih bs2 hrec j2 a b ha hb

theorem mapME_ok_mem {α β : Type} (f : α → Except Err β) :
    ∀ (l : List α) (bs : List β), mapME f l = .ok bs →
      ∀ b ∈ bs, ∃ a ∈ l, f a = .ok b := by
  intro l
  induction l with
  | nil => intro bs h b hb; simp [mapME] at h; subst h; simp at hb
  | cons x xs ih =>
    intro bs h b hb
    unfold mapME at h
    cases hfa : f x with
    | error e => rw [hfa] at h; exact absurd h (by simp)
    | ok b0 =>
      rw [hfa] at h
      cases hrec : mapME f xs with
      | error e => rw [hrec] at h; exact absurd h (by simp)
      | ok bs2 =>
        rw [hrec] at h
        simp at h
        subst h
        rcases List.mem_cons.mp hb with hb0 | hbs
        · exact ⟨x, by simp, by rw [hfa, hb0]⟩
        · rcases ih bs2 hrec b hbs with ⟨a, hal, hfa2⟩
          exact ⟨a, by simp [hal], hfa2⟩

theorem mapME_ok_map {α β : Type} (f : α → Except Err β) (g : α → β) :
    ∀ (l : List α), (∀ a ∈ l, f a = .ok (g a)) → mapME f l = .ok (l.map g) := by
  intro l
  induction l with
  | nil => intro _; rfl
  | cons x xs ih =>
    intro h
    unfold mapME
    rw [h x (by simp), ih (fun a ha => h a (by simp [ha]))]
    simp

theorem mapME_error_mem {α β : Type} (f : α → Except Err β) :
    ∀ (l : List α) (e : Err), mapME f l = .error e → ∃ a ∈ l, f a = .error e := by
  intro l
  induction l with
  | nil => intro e h; simp [mapME] at h
  | cons x xs ih =>
    intro e h
    unfold mapME at h
    cases hfa : f x with
    | error e0 =>
      rw [hfa] at h
      simp at h
      exact ⟨x, by simp, by rw [hfa, h]⟩
    | ok b =>
      rw [hfa] at h
      cases hrec : mapME f xs with
      | error e0 =>
        rw [hrec] at h
        simp at h
        subst h
        rcases ih e0 hrec with ⟨a, hal, hfa2⟩
        exact ⟨a, by simp [hal], hfa2⟩
      | ok bs2 => rw [hrec] at h; exact absurd h (by simp)

theorem mapME_error_of_mem {α β : Type} (f : α → Except Err β) (l : List α) (a : α)
    (hal : a ∈ l) (hfa : ∀ b, f a ≠ .ok b) : ∃ e, mapME f l = .error e := by
  induction l with
  | nil => simp at hal
  | cons x xs ih =>
    cases hfx : f x with
    | error e => exact ⟨e, by unfold mapME; rw [hfx]⟩
    | ok b =>
      rcases List.mem_cons.mp hal with h0 | hmem
      · subst h0; exact absurd hfx (hfa b)
      · rcases ih hmem with ⟨e, he⟩
        exact ⟨e, by unfold mapME; rw [hfx, he]⟩

theorem mapME_isOk {α β : Type} (f : α → Except Err β) :
    ∀ (l : List α), (∀ a ∈ l, ∃ b, f a = .ok b) → ∃ bs, mapME f l = .ok bs := by
  intro l
  induction l with
  | nil => intro _; exact ⟨[], rfl⟩
  | cons x xs ih =>
    intro h
    rcases h x (by simp) with ⟨b, hb⟩
    rcases ih (fun a ha => h a (by simp [ha])) with ⟨bs, hbs⟩
    exact ⟨b :: bs, by unfold mapME; rw [hb, hbs]⟩

/-! ### The first-minimum property of Python's `min` -/

theorem pyMin_spec :
    ∀ (xs : List (EdgeKey × Int)) (b : EdgeKey × Int),
      ∃ i : Nat, (b :: xs)[i]? = some (pyMin b xs) ∧
        (∀ (j : Nat) (y : EdgeKey × Int), (b :: xs)[j]? = some y → (pyMin b xs).2 ≤ y.2) ∧
        (∀ (j : Nat) (y : EdgeKey × Int), j < i → (b :: xs)[j]? = some y →
          (pyMin b xs).2 < y.2) := by
  intro xs
  induction xs with
  | nil =>
    intro b
    refine ⟨0, by simp [pyMin], ?_, ?_⟩
    · intro j y hy
      cases j with
      | zero => simp [pyMin] at hy ⊢; simp [← hy]
      | succ j2 => simp at hy
    · intro j y hj hy; omega
  | cons x rest ih =>
    intro b
    by_cases hlt : x.2 < b.2
    · rcases ih x with ⟨i, hi, hbd, hst⟩
      rw [pyMin, if_pos hlt]
      refine ⟨i + 1, by simpa using hi, ?_, ?_⟩
      · intro j y hy
        cases j with
        | zero =>
          simp at hy
          have hx : (pyMin x rest).2 ≤ x.2 := hbd 0 x (by simp)
          rw [← hy]; omega
        | succ j2 => exact hbd j2 y (by simpa using hy)
      · intro j y hj hy
        cases j with
        | zero =>
          simp at hy
          have hx : (pyMin x rest).2 ≤ x.2 := hbd 0 x (by simp)
          rw [← hy]; omega
        | succ j2 => exact hst j2 y (by omega) (by simpa using hy)
    · rcases ih b with ⟨i, hi, hbd, hst⟩
      rw [pyMin, if_neg hlt]
      cases i with
      | zero =>
        simp at hi
        refine ⟨0, by simp [← hi], ?_, ?_⟩
        · intro j y hy
          cases j with
          | zero => simp at hy; rw [← hy, ← hi]
          | succ j2 =>
            cases j2 with
            | zero => simp at hy; rw [← hy, ← hi]; omega
            | succ j3 => exact hbd (j3 + 1) y (by simpa using hy)
        · intro j y hj hy; omega
      | succ i2 =>
        have hb : (pyMin b rest).2 < b.2 := by
          have := hst 0 b (by omega) (by simp)
          exact this
        refine ⟨i2 + 2, by simpa using hi, ?_, ?_⟩
        · intro j y hy
          cases j with
          | zero => simp at hy; rw [← hy]; omega
          | succ j2 =>
            cases j2 with
            | zero => simp at hy; rw [← hy]; omega
            | succ j3 => exact hbd (j3 + 1) y (by simpa using hy)
        · intro j y hj hy
          cases j with
          | zero => simp at hy; rw [← hy]; omega
          | succ j2 =>
            cases j2 with
            | zero => simp at hy; rw [← hy]; omega
            | succ j3 => exact hst (j3 + 1) y (by omega) (by simpa using hy)

/-! ### Lemmas about `minLengthKey` -/

theorem lenStep_error_eq (a : EdgeKey × EdgeData) (e : Err)
    (h : lenStep a = .error e) : e = Err.keyError := by
  unfold lenStep at h
  cases ha : a.2.length with
  | some L => rw [ha] at h; simp at h
  | none => rw [ha] at h; simp at h; exact h.symm

theorem minLengthKey_error_eq (es : List (EdgeKey × EdgeData)) (e : Err)
    (h : minLengthKey es = .error e) : e = Err.keyError := by
  unfold minLengthKey at h
  cases hmm : mapME lenStep es with
  | error e0 =>
    rw [hmm] at h
    simp at h
    rcases mapME_error_mem _ es e0 hmm with ⟨a, _, hfa⟩
    subst h
    exact lenStep_error_eq a _ hfa
  | ok kls =>
    rw [hmm] at h
    cases kls with
    | nil => simp at h; exact h.symm
    | cons x xs => simp at h

theorem minLengthKey_nil : minLengthKey [] = .error Err.keyError := rfl

theorem minLengthKey_error_of_missing (es : List (EdgeKey × EdgeData))
    (k0 : EdgeKey) (d0 : EdgeData) (hmem : (k0, d0) ∈ es) (hnone : d0.length = none) :
    minLengthKey es = .error Err.keyError := by
  have hfail : ∀ b, lenStep (k0, d0) ≠ .ok b := by
    intro b
    simp [lenStep, hnone]
  rcases mapME_error_of_mem lenStep es (k0, d0) hmem hfail with ⟨e, he⟩
  have hout : minLengthKey es = .error e := by
    unfold minLengthKey
    rw [he]
  rw [hout, minLengthKey_error_eq es e hout]

/-- The element-level function of `minLengthKey`'s key extraction. -/
def keyLen (e : EdgeKey × EdgeData) : EdgeKey × Int := (e.1, lenD e)

theorem minLengthKey_ok_spec (es : List (EdgeKey × EdgeData)) (hne : es ≠ [])
    (hL : ∀ e ∈ es, (e.2.length).isSome = true) :
    ∃ (i : Nat) (ed : EdgeKey × EdgeData), es[i]? = some ed ∧
      minLengthKey es = .ok ed.1 ∧
      (∀ (j : Nat) (y : EdgeKey × EdgeData), es[j]? = some y → lenD ed ≤ lenD y) ∧
      (∀ (j : Nat) (y : EdgeKey × EdgeData), j < i → es[j]? = some y → lenD ed < lenD y) := by
  have hmm : mapME lenStep es = .ok (es.map keyLen) := by
    apply mapME_ok_map
    intro a ha
    rcases Option.isSome_iff_exists.mp (hL a ha) with ⟨L, hLa⟩
    simp [lenStep, hLa, keyLen, lenD]
  cases es with
  | nil => exact absurd rfl hne
  | cons e0 erest =>
    simp only [List.map] at hmm
    rcases pyMin_spec (erest.map keyLen) (keyLen e0) with ⟨i, hi, hbd, hst⟩
    have hgm : ∀ (j : Nat) (y : EdgeKey × EdgeData), (e0 :: erest)[j]? = some y →
        (keyLen e0 :: erest.map keyLen)[j]? = some (keyLen y) := by
      intro j y hy
      have hcm : (keyLen e0 :: erest.map keyLen) = (e0 :: erest).map keyLen := by simp
      rw [hcm, List.getElem?_map, hy]
      rfl
    have hlt : i < (e0 :: erest).length := by
      rcases List.getElem?_eq_some_iff.mp hi with ⟨hlen, _⟩
      simpa using hlen
    obtain ⟨ed, hii⟩ : ∃ ed, (e0 :: erest)[i]? = some ed :=
      ⟨_, List.getElem?_eq_getElem hlt⟩
    have hkl : keyLen ed = pyMin (keyLen e0) (erest.map keyLen) := by
      have hge := hgm i ed hii
      rw [hi] at hge
      simp at hge
      rw [hge]
    refine ⟨i, ed, hii, ?_, ?_, ?_⟩
    · unfold minLengthKey
      rw [hmm]
      show Except.ok (pyMin (keyLen e0) (List.map keyLen erest)).1 = Except.ok ed.1
      rw [← hkl]
      rfl
    · intro j y hy
      have hb := hbd j (keyLen y) (hgm j y hy)
      rw [← hkl] at hb
      simpa [keyLen] using hb
    · intro j y hj hy
      have hs := hst j (keyLen y) hj (hgm j y hy)
      rw [← hkl] at hs
      simpa [keyLen] using hs

theorem minLengthKey_ok_mem (es : List (EdgeKey × EdgeData)) (k : EdgeKey)
    (h : minLengthKey es = .ok k) : ∃ d, (k, d) ∈ es ∧ (d.length).isSome = true := by
  unfold minLengthKey at h
  cases hmm : mapME lenStep es with
  | error e0 => rw [hmm] at h; simp at h
  | ok kls =>
    rw [hmm] at h
    cases kls with
    | nil => simp at h
    | cons x xs =>
      simp at h
      rcases pyMin_spec xs x with ⟨i, hi, _, _⟩
      have hmemk : pyMin x xs ∈ x :: xs := by
        rcases List.getElem?_eq_some_iff.mp hi with ⟨hlt, hget⟩
        rw [← hget]
        exact List.getElem_mem hlt
      rcases mapME_ok_mem _ es (x :: xs) hmm (pyMin x xs) hmemk with ⟨a, hal, hfa⟩
      unfold lenStep at hfa
      cases ha : a.2.length with
      | some L =>
        rw [ha] at hfa
        simp at hfa
        refine ⟨a.2, ?_, by simp [ha]⟩
        have hka : (k, a.2) = a := by
          have h1 : a.1 = (pyMin x xs).1 := by rw [← hfa]
          rw [← h, ← h1]
        rw [hka]
        exact hal
      | none => rw [ha] at hfa; simp at hfa

/-! ### Lemmas about adjacency, the subgraph and the edge table -/

theorem adj_mem_iff (G : MultiDiGraph) (u v : Node) (k : EdgeKey) (d : EdgeData) :
    (k, d) ∈ G.adj u v ↔ (⟨u, v, k, d⟩ : Edge) ∈ G.edges := by
  unfold MultiDiGraph.adj
  rw [List.mem_filterMap]
  constructor
  · rintro ⟨e, hmem, hif⟩
    by_cases hc : e.u = u ∧ e.v = v
    · rw [if_pos hc] at hif
      simp at hif
      have he : e = ⟨u, v, k, d⟩ := by
        cases e
        simp_all
      rw [← he]
      exact hmem
    · rw [if_neg hc] at hif
      simp at hif
  · intro hmem
    exact ⟨⟨u, v, k, d⟩, hmem, by simp⟩

theorem table_row_edge (G : MultiDiGraph) (ns : List Node) (r : Row)
    (h : r ∈ graph_to_gdfs (G.subgraph ns)) :
    (⟨r.u, r.v, r.key, r.data⟩ : Edge) ∈ G.edges ∧ r.u ∈ ns ∧ r.v ∈ ns := by
  unfold graph_to_gdfs MultiDiGraph.subgraph at h
  simp only [List.mem_map] at h
  rcases h with ⟨e, hmem, hre⟩
  rw [List.mem_filter] at hmem
  rcases hmem with ⟨hedge, hcond⟩
  simp at hcond
  have hr : r.u = e.u ∧ r.v = e.v ∧ r.key = e.key ∧ r.data = e.data := by
    rw [← hre]; simp
  rcases hr with ⟨h1, h2, h3, h4⟩
  rw [h1, h2, h3, h4]
  exact ⟨by cases e; exact hedge, hcond.1, hcond.2⟩

theorem table_find_eq (G : MultiDiGraph) (ns : List Node) (e : Edge)
    (hwf : G.wfKeys) (hmem : e ∈ G.edges) (hu : e.u ∈ ns) (hv : e.v ∈ ns) :
    (graph_to_gdfs (G.subgraph ns)).find? (rowMatch (e.u, e.v, e.key)) =
      some ⟨e.u, e.v, e.key, e.data⟩ := by
  have hsome : ((graph_to_gdfs (G.subgraph ns)).find? (rowMatch (e.u, e.v, e.key))).isSome := by
    rw [List.find?_isSome]
    refine ⟨⟨e.u, e.v, e.key, e.data⟩, ?_, by simp [rowMatch]⟩
    unfold graph_to_gdfs MultiDiGraph.subgraph
    simp only [List.mem_map]
    refine ⟨e, ?_, rfl⟩
    rw [List.mem_filter]
    exact ⟨hmem, by simp [hu, hv]⟩
  rcases Option.isSome_iff_exists.mp hsome with ⟨r, hr⟩
  have hmatch := List.find?_some hr
  have hrmem := List.mem_of_find?_eq_some hr
  rcases table_row_edge G ns r hrmem with ⟨hredge, _, _⟩
  unfold rowMatch at hmatch
  simp at hmatch
  obtain ⟨⟨hru, hrv⟩, hrk⟩ := hmatch
  have hsame : (⟨r.u, r.v, r.key, r.data⟩ : Edge) = e := by
    apply List.inj_on_of_nodup_map hwf hredge hmem
    simp [hru, hrv, hrk]
  have hrd : r.data = e.data := by
    have := congrArg Edge.data hsame
    simpa using this
  have hre : r = ⟨e.u, e.v, e.key, e.data⟩ := by
    calc r = ⟨r.u, r.v, r.key, r.data⟩ := rfl
      _ = ⟨e.u, e.v, e.key, e.data⟩ := by rw [hru, hrv, hrk, hrd]
  rw [hr, hre]

/-! ### Lemmas about consecutive pairs -/

theorem consecutivePairs_length (route : List Node) :
    (consecutivePairs route).length = route.length - 1 := by
  unfold consecutivePairs
  simp

theorem consecutivePairs_getElem? (route : List Node) (j : Nat)
    (hj : j + 1 < route.length) :
    (consecutivePairs route)[j]? = some (route[j]!, route[j + 1]!) := by
  have hlen : j < (consecutivePairs route).length := by
    rw [consecutivePairs_length]; omega
  unfold consecutivePairs at hlen ⊢
  rw [List.getElem?_eq_getElem hlen, List.getElem_zip, List.getElem_dropLast,
    List.getElem_tail, getElem!_pos route j (by omega), getElem!_pos route (j + 1) hj]

theorem consecutivePairs_mem (route : List Node) (p : Node × Node)
    (h : p ∈ consecutivePairs route) : p.1 ∈ route ∧ p.2 ∈ route := by
  unfold consecutivePairs at h
  have h1 := List.of_mem_zip h
  exact ⟨(List.dropLast_sublist route).subset h1.1, (List.tail_sublist route).subset h1.2⟩

theorem table_mem_of_edge (G : MultiDiGraph) (ns : List Node) (e : Edge)
    (hmem : e ∈ G.edges) (hu : e.u ∈ ns) (hv : e.v ∈ ns) :
    (⟨e.u, e.v, e.key, e.data⟩ : Row) ∈ graph_to_gdfs (G.subgraph ns) := by
  unfold graph_to_gdfs MultiDiGraph.subgraph
  simp only [List.mem_map]
  refine ⟨e, ?_, rfl⟩
  rw [List.mem_filter]
  exact ⟨hmem, by simp [hu, hv]⟩

/-! ### The route selection chain -/

theorem routeStep_error_eq (G : MultiDiGraph) (p : Node × Node) (e : Err)
    (h : routeStep G p = .error e) : e = Err.keyError := by
  unfold routeStep at h
  cases hm : minLengthKey (G.adj p.1 p.2) with
  | error e0 =>
    rw [hm] at h
    simp at h
    subst h
    exact minLengthKey_error_eq _ _ hm
  | ok k => rw [hm] at h; simp at h

theorem routeUVK_error_eq (G : MultiDiGraph) (route : List Node) (e : Err)
    (h : routeUVK G route = .error e) : e = Err.keyError := by
  rcases mapME_error_mem _ _ e h with ⟨p, _, hp⟩
  exact routeStep_error_eq G p e hp

theorem routeUVK_ok_mem (G : MultiDiGraph) (route : List Node)
    (uvk : List (Node × Node × EdgeKey)) (h : routeUVK G route = .ok uvk) :
    ∀ t ∈ uvk, t.1 ∈ route ∧ t.2.1 ∈ route ∧
      ∃ d, (⟨t.1, t.2.1, t.2.2, d⟩ : Edge) ∈ G.edges := by
  intro t ht
  rcases mapME_ok_mem _ _ uvk h t ht with ⟨p, hpmem, hstep⟩
  unfold routeStep at hstep
  cases hm : minLengthKey (G.adj p.1 p.2) with
  | error e0 => rw [hm] at hstep; simp at hstep
  | ok k =>
    rw [hm] at hstep
    simp at hstep
    rcases consecutivePairs_mem route p hpmem with ⟨hp1, hp2⟩
    rcases minLengthKey_ok_mem _ _ hm with ⟨d, hdmem, _⟩
    rw [← hstep]
    refine ⟨hp1, hp2, d, ?_⟩
    exact (adj_mem_iff G p.1 p.2 k d).mp hdmem

theorem locTriples_route_ok (G : MultiDiGraph) (route : List Node)
    (uvk : List (Node × Node × EdgeKey)) (h : routeUVK G route = .ok uvk) :
    ∃ rows, locTriples (graph_to_gdfs (G.subgraph route)) uvk = .ok rows := by
  apply mapME_isOk
  intro t ht
  rcases routeUVK_ok_mem G route uvk h t ht with ⟨hu, hv, d, hedge⟩
  have hfind : ((graph_to_gdfs (G.subgraph route)).find? (rowMatch t)).isSome := by
    rw [List.find?_isSome]
    refine ⟨⟨t.1, t.2.1, t.2.2, d⟩, ?_, by simp [rowMatch]⟩
    exact table_mem_of_edge G route ⟨t.1, t.2.1, t.2.2, d⟩ hedge hu hv
  rcases Option.isSome_iff_exists.mp hfind with ⟨r, hr⟩
  exact ⟨r, by unfold locStep; rw [hr]⟩

/-! ### Success shape of `_plot_folium` -/

theorem buildPolylines_ok (gdf : List Row) (pa : Option String) (c : String)
    (w o : Int) (kw : List (String × String)) (hpa : popupOk gdf pa) :
    buildPolylines gdf pa c w o kw = .ok (gdf.map (fun r =>
      _make_folium_polyline r.data.geometry c w o (popupValOf r pa) kw)) := by
  apply mapME_ok_map
  intro r hr
  unfold plStep rowPopupVal popupValOf
  cases pa with
  | none => simp
  | some a =>
    have h2 : ∀ r2 ∈ gdf, (r2.data.attrs.lookup a).isSome = true := hpa
    rcases Option.isSome_iff_exists.mp (h2 r hr) with ⟨v, hv⟩
    simp [hv]

theorem unionCentroid_ok (gdf : List Row) (h : allPoints gdf ≠ []) :
    ∃ ctr, unionCentroid gdf = .ok ctr := by
  unfold unionCentroid
  cases hap : allPoints gdf with
  | nil => exact absurd hap h
  | cons p ps => exact ⟨_, rfl⟩

theorem unionCentroid_empty (gdf : List Row) (h : allPoints gdf = []) :
    unionCentroid gdf = .error Err.emptyGeometry := by
  unfold unionCentroid
  rw [h]

theorem plot_folium_ok (gdf : List Row) (m : Option MapObj) (pa : Option String)
    (t : String) (z : Int) (fb : Bool) (c : String) (w o : Int)
    (kw : List (String × String)) (ctr : Point)
    (hctr : unionCentroid gdf = .ok ctr) (hpa : popupOk gdf pa) :
    _plot_folium true gdf m pa t z fb c w o kw =
      .ok (applyFitBounds fb gdf (addPolylines (initialMap m ctr z t)
        (gdf.map (fun r =>
          _make_folium_polyline r.data.geometry c w o (popupValOf r pa) kw)))) := by
  unfold _plot_folium
  rw [if_pos rfl, hctr, buildPolylines_ok gdf pa c w o kw hpa]

theorem plot_folium_unavailable (gdf : List Row) (m : Option MapObj) (pa : Option String)
    (t : String) (z : Int) (fb : Bool) (c : String) (w o : Int)
    (kw : List (String × String)) :
    _plot_folium false gdf m pa t z fb c w o kw =
      .error (Err.unavailableError unavailableMsg) := by
  unfold _plot_folium
  simp

/-! ### Preservation facts about map assembly -/

theorem addPolylines_children (mo : MapObj) (pls : List PolyLine) :
    (addPolylines mo pls).children = mo.children ++ pls := by
  cases mo <;> rfl

theorem addPolylines_centerOf (mo : MapObj) (pls : List PolyLine) :
    (addPolylines mo pls).centerOf = mo.centerOf := by
  cases mo <;> rfl

theorem addPolylines_zoomOf (mo : MapObj) (pls : List PolyLine) :
    (addPolylines mo pls).zoomOf = mo.zoomOf := by
  cases mo <;> rfl

theorem addPolylines_isTopLevel (mo : MapObj) (pls : List PolyLine) :
    (addPolylines mo pls).isTopLevel = mo.isTopLevel := by
  cases mo <;> rfl

theorem applyFitBounds_map_eq (fb : Bool) (gdf : List Row) (fm : FoliumMap) :
    applyFitBounds fb gdf (.map fm) =
      (if fb then
        match total_bounds gdf with
        | some (mnx, mny, mxx, mxy) =>
          .map { fm with fitted_bounds := some ((mny, mnx), (mxy, mxx)) }
        | none => .map fm
      else .map fm) := rfl

theorem applyFitBounds_cases (fb : Bool) (gdf : List Row) (mo : MapObj) :
    (∃ fm fbnds, mo = .map fm ∧
      applyFitBounds fb gdf mo = .map { fm with fitted_bounds := fbnds }) ∨
    (∃ fg, mo = .featureGroup fg ∧ applyFitBounds fb gdf mo = .featureGroup fg) := by
  cases mo with
  | featureGroup fg => exact Or.inr ⟨fg, rfl, rfl⟩
  | map fm =>
    left
    rw [applyFitBounds_map_eq]
    by_cases hfb : fb
    · rw [if_pos hfb]
      cases htb : total_bounds gdf with
      | none => exact ⟨fm, fm.fitted_bounds, rfl, rfl⟩
      | some tb =>
        obtain ⟨mnx, mny, mxx, mxy⟩ := tb
        exact ⟨fm, some ((mny, mnx), (mxy, mxx)), rfl, rfl⟩
    · rw [if_neg hfb]
      exact ⟨fm, fm.fitted_bounds, rfl, rfl⟩

theorem applyFitBounds_children (fb : Bool) (gdf : List Row) (mo : MapObj) :
    (applyFitBounds fb gdf mo).children = mo.children := by
  rcases applyFitBounds_cases fb gdf mo with ⟨fm, fbnds, hmo, hres⟩ | ⟨fg, hmo, hres⟩ <;>
    (rw [hres, hmo]; try rfl)

theorem applyFitBounds_centerOf (fb : Bool) (gdf : List Row) (mo : MapObj) :
    (applyFitBounds fb gdf mo).centerOf = mo.centerOf := by
  rcases applyFitBounds_cases fb gdf mo with ⟨fm, fbnds, hmo, hres⟩ | ⟨fg, hmo, hres⟩ <;>
    (rw [hres, hmo]; try rfl)

theorem applyFitBounds_zoomOf (fb : Bool) (gdf : List Row) (mo : MapObj) :
    (applyFitBounds fb gdf mo).zoomOf = mo.zoomOf := by
  rcases applyFitBounds_cases fb gdf mo with ⟨fm, fbnds, hmo, hres⟩ | ⟨fg, hmo, hres⟩ <;>
    (rw [hres, hmo]; try rfl)

theorem applyFitBounds_isTopLevel (fb : Bool) (gdf : List Row) (mo : MapObj) :
    (applyFitBounds fb gdf mo).isTopLevel = mo.isTopLevel := by
  rcases applyFitBounds_cases fb gdf mo with ⟨fm, fbnds, hmo, hres⟩ | ⟨fg, hmo, hres⟩ <;>
    (rw [hres, hmo]; try rfl)

theorem applyFitBounds_map_some (gdf : List Row) (fm : FoliumMap)
    (mnx mny mxx mxy : Int) (htb : total_bounds gdf = some (mnx, mny, mxx, mxy)) :
    applyFitBounds true gdf (.map fm) =
      .map { fm with fitted_bounds := some ((mny, mnx), (mxy, mxx)) } := by
  rw [applyFitBounds_map_eq, if_pos rfl, htb]

theorem applyFitBounds_fg (fb : Bool) (gdf : List Row) (fg : FeatureGroup) :
    applyFitBounds fb gdf (.featureGroup fg) = .featureGroup fg := rfl

/-! ### Fold characterizations of the bounding box -/

theorem foldl_min_spec :
    ∀ (xs : List Int) (x : Int),
      (∀ y ∈ xs, xs.foldl min x ≤ y) ∧ xs.foldl min x ≤ x ∧
        (xs.foldl min x = x ∨ xs.foldl min x ∈ xs) := by
  intro xs
  induction xs with
  | nil => intro x; exact ⟨by simp, le_refl x, Or.inl rfl⟩
  | cons x2 rest ih =>
    intro x
    have hfold : (x2 :: rest).foldl min x = rest.foldl min (min x x2) := by simp
    rcases ih (min x x2) with ⟨hbd, hle, hmem⟩
    refine ⟨?_, ?_, ?_⟩
    · intro y hy
      rcases List.mem_cons.mp hy with h2 | h3
      · rw [hfold, h2]
        exact le_trans hle (min_le_right x x2)
      · rw [hfold]
        exact hbd y h3
    · rw [hfold]
      exact le_trans hle (min_le_left x x2)
    · rw [hfold]
      rcases hmem with heq | hmem2
      · rcases min_choice x x2 with hc | hc
        · exact Or.inl (heq.trans hc)
        · exact Or.inr (by rw [heq.trans hc]; simp)
      · exact Or.inr (by simp [hmem2])

theorem foldl_max_spec :
    ∀ (xs : List Int) (x : Int),
      (∀ y ∈ xs, y ≤ xs.foldl max x) ∧ x ≤ xs.foldl max x ∧
        (xs.foldl max x = x ∨ xs.foldl max x ∈ xs) := by
  intro xs
  induction xs with
  | nil => intro x; exact ⟨by simp, le_refl x, Or.inl rfl⟩
  | cons x2 rest ih =>
    intro x
    have hfold : (x2 :: rest).foldl max x = rest.foldl max (max x x2) := by simp
    rcases ih (max x x2) with ⟨hbd, hle, hmem⟩
    refine ⟨?_, ?_, ?_⟩
    · intro y hy
      rcases List.mem_cons.mp hy with h2 | h3
      · rw [hfold, h2]
        exact le_trans (le_max_right x x2) hle
      · rw [hfold]
        exact hbd y h3
    · rw [hfold]
      exact le_trans (le_max_left x x2) hle
    · rw [hfold]
      rcases hmem with heq | hmem2
      · rcases max_choice x x2 with hc | hc
        · exact Or.inl (heq.trans hc)
        · exact Or.inr (by rw [heq.trans hc]; simp)
      · exact Or.inr (by simp [hmem2])

theorem total_bounds_spec (gdf : List Row) (hne : allPoints gdf ≠ []) :
    ∃ mnx mny mxx mxy : Int, total_bounds gdf = some (mnx, mny, mxx, mxy) ∧
      (∀ q ∈ allPoints gdf, mnx ≤ q.1 ∧ mny ≤ q.2 ∧ q.1 ≤ mxx ∧ q.2 ≤ mxy) ∧
      mnx ∈ (allPoints gdf).map Prod.fst ∧ mny ∈ (allPoints gdf).map Prod.snd ∧
      mxx ∈ (allPoints gdf).map Prod.fst ∧ mxy ∈ (allPoints gdf).map Prod.snd := by
  cases hap : allPoints gdf with
  | nil => exact absurd hap hne
  | cons p ps =>
    have htb : total_bounds gdf =
        some ((ps.map Prod.fst).foldl min p.1, (ps.map Prod.snd).foldl min p.2,
          (ps.map Prod.fst).foldl max p.1, (ps.map Prod.snd).foldl max p.2) := by
      unfold total_bounds
      rw [hap]
    rcases foldl_min_spec (ps.map Prod.fst) p.1 with ⟨hxbd, hxle, hxmem⟩
    rcases foldl_min_spec (ps.map Prod.snd) p.2 with ⟨hybd, hyle, hymem⟩
    rcases foldl_max_spec (ps.map Prod.fst) p.1 with ⟨hxbd2, hxle2, hxmem2⟩
    rcases foldl_max_spec (ps.map Prod.snd) p.2 with ⟨hybd2, hyle2, hymem2⟩
    refine ⟨_, _, _, _, htb, ?_, ?_, ?_, ?_, ?_⟩
    · intro q hq
      rcases List.mem_cons.mp hq with h1 | h2
      · subst h1
        exact ⟨hxle, hyle, hxle2, hyle2⟩
      · exact ⟨hxbd q.1 (List.mem_map_of_mem Prod.fst h2),
          hybd q.2 (List.mem_map_of_mem Prod.snd h2),
          hxbd2 q.1 (List.mem_map_of_mem Prod.fst h2),
          hybd2 q.2 (List.mem_map_of_mem Prod.snd h2)⟩
    · rcases hxmem with h1 | h2
      · simp [h1]
      · simp [h2]
    · rcases hymem with h1 | h2
      · simp [h1]
      · simp [h2]
    · rcases hxmem2 with h1 | h2
      · simp [h1]
      · simp [h2]
    · rcases hymem2 with h1 | h2
      · simp [h1]
      · simp [h2]

/-! ### Plumbing lemmas -/

theorem initialMap_children (m : Option MapObj) (ctr : Point) (z : Int) (t : String) :
    (initialMap m ctr z t).children = initChildren m := by
  cases m <;> rfl

theorem allPoints_cons (r : Row) (rest : List Row) :
    allPoints (r :: rest) = r.data.geometry ++ allPoints rest := by
  simp [allPoints]

theorem plot_route_folium_eq_ok (fa : Bool) (G : MultiDiGraph) (route : List Node)
    (m : Option MapObj) (pa : Option String) (t : String) (z : Int) (fb : Bool)
    (c : String) (w o : Int) (kw : List (String × String))
    (uvk : List (Node × Node × EdgeKey)) (rows : List Row)
    (h1 : routeUVK G route = .ok uvk)
    (h2 : locTriples (graph_to_gdfs (G.subgraph route)) uvk = .ok rows) :
    plot_route_folium fa G route m pa t z fb c w o kw =
      _plot_folium fa rows m pa t z fb c w o kw := by
  simp only [plot_route_folium, h1, h2]

theorem plot_route_folium_eq_error (fa : Bool) (G : MultiDiGraph) (route : List Node)
    (m : Option MapObj) (pa : Option String) (t : String) (z : Int) (fb : Bool)
    (c : String) (w o : Int) (kw : List (String × String)) (e : Err)
    (h1 : routeUVK G route = .error e) :
    plot_route_folium fa G route m pa t z fb c w o kw = .error e := by
  simp only [plot_route_folium, h1]

/-! ### Concrete fixtures used by counterexamples and witnesses -/

/-- Sample edge data: two-point geometry, length 7. -/
def exData1 : EdgeData := ⟨[(10, 20), (11, 21)], some 7, [("name", "a")]⟩

/-- Sample edge data: two-point geometry, length 5 (the shorter parallel edge). -/
def exData2 : EdgeData := ⟨[(10, 20), (12, 22)], some 5, [("name", "b")]⟩

/-- Sample edge data: two-point geometry, length 9. -/
def exData3 : EdgeData := ⟨[(12, 22), (13, 23)], some 9, [("name", "c")]⟩

/-- A sample graph: parallel edges 0→1 (keys 0 and 1, the second shorter)
and one edge 1→2. -/
def exGraph : MultiDiGraph :=
  ⟨[⟨0, 1, 0, exData1⟩, ⟨0, 1, 1, exData2⟩, ⟨1, 2, 0, exData3⟩]⟩

/-- The graph with no edges. -/
def emptyGraph : MultiDiGraph := ⟨[]⟩

/-! ### Claim theorems -/

/-- C1, counterexample: with folium unavailable, calling `plot_route_folium`
on a route whose consecutive pair has no edge fails with the `KeyError` of
route-edge selection, not with the unavailable `ImportError` — so the
unavailable error is not raised before route-edge selection occurs, refuting
the claim as stated. -/
theorem claim_C1_counterexample :
    plot_route_folium false exGraph [0, 9] none none "cartodbpositron" 1 true
      "#cc0000" 5 1 [] = .error Err.keyError := by rfl

/-- C1 (amended): when folium is unavailable every call that reaches the
internal renderer fails with the explicit unavailable `ImportError`:
`plot_graph_folium` always does (though only after edge-table extraction,
which runs first), and `plot_route_folium` does whenever its route-edge
selection itself succeeds — otherwise the selection's own lookup error
surfaces instead. -/
theorem claim_C1_amended (G : MultiDiGraph) (m : Option MapObj) (pa : Option String)
    (t : String) (z : Int) (fb : Bool) (c : String) (w o : Int)
    (kw : List (String × String)) (route : List Node)
    (uvk : List (Node × Node × EdgeKey)) (hsel : routeUVK G route = .ok uvk) :
    plot_graph_folium false G m pa t z fb c w o kw =
      .error (Err.unavailableError unavailableMsg) ∧
    plot_route_folium false G route m pa t z fb c w o kw =
      .error (Err.unavailableError unavailableMsg) := by
  constructor
  · unfold plot_graph_folium
    exact plot_folium_unavailable _ _ _ _ _ _ _ _ _ _
  · rcases locTriples_route_ok G route uvk hsel with ⟨rows, hrows⟩
    rw [plot_route_folium_eq_ok false G route m pa t z fb c w o kw uvk rows hsel hrows]
    exact plot_folium_unavailable _ _ _ _ _ _ _ _ _ _

/-- C1 witness: the amended claim at a concrete graph and route. -/
theorem claim_C1_witness :
    plot_graph_folium false exGraph none none "t" 1 true "c" 5 1 [] =
      .error (Err.unavailableError unavailableMsg) ∧
    plot_route_folium false exGraph [0, 1] none none "t" 1 true "c" 5 1 [] =
      .error (Err.unavailableError unavailableMsg) :=
  claim_C1_amended exGraph none none "t" 1 true "c" 5 1 [] [0, 1] [(0, 1, 1)] (by rfl)

/-- C4, counterexample: on the empty route the call does not succeed with
zero polylines — it fails in the centroid computation over the empty
geometry union, refuting "the call does not fail on such a route". -/
theorem claim_C4_counterexample :
    plot_route_folium true emptyGraph [] none none "cartodbpositron" 1 true
      "#cc0000" 5 1 [] = .error Err.emptyGeometry := by rfl

/-- C4 (amended): for a route of 0 or 1 nodes zero route edges are selected
(the selection yields the empty list), but instead of returning a map with
zero polylines the call fails with the empty-geometry error raised by the
centroid computation of the internal renderer. -/
theorem claim_C4_amended (G : MultiDiGraph) (route : List Node) (m : Option MapObj)
    (pa : Option String) (t : String) (z : Int) (fb : Bool) (c : String) (w o : Int)
    (kw : List (String × String)) (hroute : route.length ≤ 1) :
    routeUVK G route = .ok [] ∧
    plot_route_folium true G route m pa t z fb c w o kw = .error Err.emptyGeometry := by
  have hpairs : consecutivePairs route = [] := by
    apply List.eq_nil_of_length_eq_zero
    rw [consecutivePairs_length]
    omega
  have huvk : routeUVK G route = .ok [] := by
    unfold routeUVK
    rw [hpairs]
    rfl
  refine ⟨huvk, ?_⟩
  rw [plot_route_folium_eq_ok true G route m pa t z fb c w o kw [] [] huvk rfl]
  unfold _plot_folium
  rw [if_pos rfl, unionCentroid_empty [] rfl]

/-- C4 witness: the amended claim at a concrete one-node route. -/
theorem claim_C4_witness :
    routeUVK exGraph [5] = .ok [] ∧
    plot_route_folium true exGraph [5] none none "t" 1 true "c" 5 1 [] =
      .error Err.emptyGeometry :=
  claim_C4_amended exGraph [5] none none "t" 1 true "c" 5 1 [] (by decide)

/-- C5: the constructed polyline's point list is the source geometry's point
list with each coordinate pair's components swapped from (lon, lat) to
(lat, lon), pointwise and order-preserving: same point count, no reversal
of the sequence. -/
theorem claim_C5_coordinate_swap (geom : List Point) (color : String)
    (weight opacity : Int) (popup_val : Option String) (kwargs : List (String × String)) :
    (_make_folium_polyline geom color weight opacity popup_val kwargs).locations =
      geom.map (fun p => (p.2, p.1)) ∧
    (_make_folium_polyline geom color weight opacity popup_val kwargs).locations.length =
      geom.length ∧
    ∀ (i : Nat), i < geom.length →
      (_make_folium_polyline geom color weight opacity popup_val kwargs).locations[i]? =
        (geom[i]?).map (fun p => (p.2, p.1)) := by
  refine ⟨rfl, by simp [_make_folium_polyline], ?_⟩
  intro i hi
  show (geom.map fun p => (p.2, p.1))[i]? = _
  rw [List.getElem?_map]

/-- C5 witness: the coordinate swap at a concrete geometry. -/
theorem claim_C5_witness :
    (_make_folium_polyline [(1, 2), (3, 4)] "c" 5 1 none []).locations =
      [(1, 2), (3, 4)].map (fun p : Point => (p.2, p.1)) ∧
    (_make_folium_polyline [(1, 2), (3, 4)] "c" 5 1 none []).locations.length =
      ([(1, 2), (3, 4)] : List Point).length ∧
    ∀ (i : Nat), i < ([(1, 2), (3, 4)] : List Point).length →
      (_make_folium_polyline [(1, 2), (3, 4)] "c" 5 1 none []).locations[i]? =
        ((([(1, 2), (3, 4)] : List Point))[i]?).map (fun p => (p.2, p.1)) :=
  claim_C5_coordinate_swap [(1, 2), (3, 4)] "c" 5 1 none []

/-- C8: `plot_route_folium` fails with the lookup `KeyError` — surfaced
directly from graph access, untranslated — whenever some consecutive route
pair has no edge in the graph, or some parallel edge between a consecutive
pair lacks the `length` attribute. -/
theorem claim_C8_lookup_error (fa : Bool) (G : MultiDiGraph) (route : List Node)
    (m : Option MapObj) (pa : Option String) (t : String) (z : Int) (fb : Bool)
    (c : String) (w o : Int) (kw : List (String × String))
    (h : (∃ p ∈ consecutivePairs route, G.adj p.1 p.2 = []) ∨
      (∃ p ∈ consecutivePairs route, ∃ kd ∈ G.adj p.1 p.2, kd.2.length = none)) :
    plot_route_folium fa G route m pa t z fb c w o kw = .error Err.keyError := by
  have hfail : ∃ p ∈ consecutivePairs route, ∀ b, routeStep G p ≠ .ok b := by
    rcases h with ⟨p, hp, hadj⟩ | ⟨p, hp, kd, hkd, hnone⟩
    · refine ⟨p, hp, ?_⟩
      intro b hb
      unfold routeStep at hb
      rw [hadj, minLengthKey_nil] at hb
      simp at hb
    · refine ⟨p, hp, ?_⟩
      intro b hb
      unfold routeStep at hb
      rw [minLengthKey_error_of_missing (G.adj p.1 p.2) kd.1 kd.2 hkd hnone] at hb
      simp at hb
  rcases hfail with ⟨p, hp, hnotok⟩
  rcases mapME_error_of_mem (routeStep G) _ p hp hnotok with ⟨e, he⟩
  have huvk : routeUVK G route = .error e := he
  have hek : e = Err.keyError := routeUVK_error_eq G route e huvk
  subst hek
  exact plot_route_folium_eq_error fa G route m pa t z fb c w o kw _ huvk

/-- C8 witness: a route over a missing edge fails with `KeyError`. -/
theorem claim_C8_witness :
    plot_route_folium true exGraph [2, 0] none none "t" 1 true "c" 5 1 [] =
      .error Err.keyError :=
  claim_C8_lookup_error true exGraph [2, 0] none none "t" 1 true "c" 5 1 []
    (Or.inl (by decide))

/-- C9, counterexample: on a graph with zero edges the graph-wide plot does
not return a map with zero polylines — it fails with the empty-geometry
error from the centroid computation, refuting the claim at E = 0. -/
theorem claim_C9_counterexample :
    plot_graph_folium true emptyGraph none none "cartodbpositron" 1 true
      "#333333" 5 1 [] = .error Err.emptyGeometry := by rfl

/-- C10: the internal renderer computes the centroid of the geometry union
unconditionally, before any polyline is built and even when a preexisting
map view is supplied (whose creation would not need it): with an empty
geometry set the call fails with the empty-geometry error instead of
returning the supplied map with zero polylines appended. -/
theorem claim_C10_centroid_unconditional (gdf : List Row) (mobj : MapObj)
    (pa : Option String) (t : String) (z : Int) (fb : Bool) (c : String) (w o : Int)
    (kw : List (String × String)) (hempty : allPoints gdf = []) :
    _plot_folium true gdf (some mobj) pa t z fb c w o kw = .error Err.emptyGeometry := by
  unfold _plot_folium
  rw [if_pos rfl, unionCentroid_empty gdf hempty]

/-- C10 witness: the empty table with a supplied map fails. -/
theorem claim_C10_witness :
    _plot_folium true [] (some (.map ⟨(0, 0), 1, "t", [], none⟩)) none "t" 1 true
      "c" 5 1 [] = .error Err.emptyGeometry :=
  claim_C10_centroid_unconditional [] (.map ⟨(0, 0), 1, "t", [], none⟩)
    none "t" 1 true "c" 5 1 [] rfl

/-- C7: when a preexisting map object is supplied, the renderer returns that
same object mutated in place — same kind (top-level map stays a map, layer
group stays a layer group), its stored center and zoom unchanged — with the
newly built polylines appended to its children. -/
theorem claim_C7_existing_map (gdf : List Row) (mobj : MapObj) (pa : Option String)
    (t : String) (z : Int) (fb : Bool) (c : String) (w o : Int)
    (kw : List (String × String)) (hpts : allPoints gdf ≠ []) (hpa : popupOk gdf pa) :
    ∃ mres, _plot_folium true gdf (some mobj) pa t z fb c w o kw = .ok mres ∧
      mres.children = mobj.children ++ gdf.map (fun r =>
        _make_folium_polyline r.data.geometry c w o (popupValOf r pa) kw) ∧
      mres.centerOf = mobj.centerOf ∧
      mres.zoomOf = mobj.zoomOf ∧
      mres.isTopLevel = mobj.isTopLevel := by
  rcases unionCentroid_ok _ hpts with ⟨ctr, hctr⟩
  have hplot := plot_folium_ok gdf (some mobj) pa t z fb c w o kw ctr hctr hpa
  refine ⟨_, hplot, ?_, ?_, ?_, ?_⟩
  · rw [applyFitBounds_children, addPolylines_children]
    simp [initialMap]
  · rw [applyFitBounds_centerOf, addPolylines_centerOf]
    simp [initialMap]
  · rw [applyFitBounds_zoomOf, addPolylines_zoomOf]
    simp [initialMap]
  · rw [applyFitBounds_isTopLevel, addPolylines_isTopLevel]
    simp [initialMap]

/-- C7 witness: a supplied map at a concrete table. -/
theorem claim_C7_witness :
    ∃ mres, _plot_folium true [⟨0, 1, 0, exData1⟩]
        (some (.map ⟨(3, 4), 2, "s", [], none⟩)) none "t" 1 true "c" 5 1 [] = .ok mres ∧
      mres.children = (MapObj.map ⟨(3, 4), 2, "s", [], none⟩).children ++
        ([⟨0, 1, 0, exData1⟩] : List Row).map (fun r =>
          _make_folium_polyline r.data.geometry "c" 5 1 (popupValOf r none) []) ∧
      mres.centerOf = (MapObj.map ⟨(3, 4), 2, "s", [], none⟩).centerOf ∧
      mres.zoomOf = (MapObj.map ⟨(3, 4), 2, "s", [], none⟩).zoomOf ∧
      mres.isTopLevel = (MapObj.map ⟨(3, 4), 2, "s", [], none⟩).isTopLevel :=
  claim_C7_existing_map [⟨0, 1, 0, exData1⟩] (.map ⟨(3, 4), 2, "s", [], none⟩)
    none "t" 1 true "c" 5 1 [] (by decide) trivial

/-- C6: with `fit_bounds = true` and a top-level map in use (freshly created
or supplied), the viewport is set to the rectangle with southwest corner
(min-y, min-x) and northeast corner (max-y, max-x) computed exactly — as
attained bounds — over all input geometries' points; a supplied sub-layer
FeatureGroup gets no bounds fitting (it is returned unchanged but for the
appended children). -/
theorem claim_C6_fit_bounds (gdf : List Row) (m : Option MapObj) (pa : Option String)
    (t : String) (z : Int) (c : String) (w o : Int) (kw : List (String × String))
    (hpts : allPoints gdf ≠ []) (hpa : popupOk gdf pa) :
    ((m = none ∨ (∃ fm0, m = some (.map fm0))) →
      ∃ fm mnx mny mxx mxy, _plot_folium true gdf m pa t z true c w o kw = .ok (.map fm) ∧
        total_bounds gdf = some (mnx, mny, mxx, mxy) ∧
        fm.fitted_bounds = some ((mny, mnx), (mxy, mxx)) ∧
        (∀ q ∈ allPoints gdf, mnx ≤ q.1 ∧ mny ≤ q.2 ∧ q.1 ≤ mxx ∧ q.2 ≤ mxy) ∧
        mnx ∈ (allPoints gdf).map Prod.fst ∧ mny ∈ (allPoints gdf).map Prod.snd ∧
        mxx ∈ (allPoints gdf).map Prod.fst ∧ mxy ∈ (allPoints gdf).map Prod.snd) ∧
    (∀ fg, m = some (.featureGroup fg) →
      _plot_folium true gdf m pa t z true c w o kw =
        .ok (.featureGroup ⟨fg.children ++ gdf.map (fun r =>
          _make_folium_polyline r.data.geometry c w o (popupValOf r pa) kw)⟩)) := by
  rcases unionCentroid_ok _ hpts with ⟨ctr, hctr⟩
  have hplot := plot_folium_ok gdf m pa t z true c w o kw ctr hctr hpa
  rcases total_bounds_spec gdf hpts with
    ⟨mnx, mny, mxx, mxy, htb, hbnd, hm1, hm2, hm3, hm4⟩
  constructor
  · intro hm
    have htop : ∃ fm1, addPolylines (initialMap m ctr z t) (gdf.map (fun r =>
        _make_folium_polyline r.data.geometry c w o (popupValOf r pa) kw)) = .map fm1 := by
      rcases hm with hnone | ⟨fm0, hsome⟩
      · subst hnone
        exact ⟨_, rfl⟩
      · subst hsome
        exact ⟨_, rfl⟩
    rcases htop with ⟨fm1, hfm1⟩
    rw [hfm1] at hplot
    rw [applyFitBounds_map_some gdf fm1 mnx mny mxx mxy htb] at hplot
    exact ⟨_, mnx, mny, mxx, mxy, hplot, htb, rfl, hbnd, hm1, hm2, hm3, hm4⟩
  · intro fg hfg
    subst hfg
    rw [hplot]
    have hadd : addPolylines (initialMap (some (MapObj.featureGroup fg)) ctr z t)
        (gdf.map (fun r =>
          _make_folium_polyline r.data.geometry c w o (popupValOf r pa) kw)) =
        .featureGroup ⟨fg.children ++ gdf.map (fun r =>
          _make_folium_polyline r.data.geometry c w o (popupValOf r pa) kw)⟩ := rfl
    rw [hadd, applyFitBounds_fg]

/-- C6 witness: a fresh map over a concrete table gets the exact bounding
rectangle as viewport. -/
theorem claim_C6_witness :
    ((none = (none : Option MapObj) ∨ (∃ fm0, (none : Option MapObj) = some (.map fm0))) →
      ∃ fm mnx mny mxx mxy, _plot_folium true [⟨0, 1, 0, exData1⟩] none none "t" 1 true
          "c" 5 1 [] = .ok (.map fm) ∧
        total_bounds [⟨0, 1, 0, exData1⟩] = some (mnx, mny, mxx, mxy) ∧
        fm.fitted_bounds = some ((mny, mnx), (mxy, mxx)) ∧
        (∀ q ∈ allPoints [⟨0, 1, 0, exData1⟩],
          mnx ≤ q.1 ∧ mny ≤ q.2 ∧ q.1 ≤ mxx ∧ q.2 ≤ mxy) ∧
        mnx ∈ (allPoints [⟨0, 1, 0, exData1⟩]).map Prod.fst ∧
        mny ∈ (allPoints [⟨0, 1, 0, exData1⟩]).map Prod.snd ∧
        mxx ∈ (allPoints [⟨0, 1, 0, exData1⟩]).map Prod.fst ∧
        mxy ∈ (allPoints [⟨0, 1, 0, exData1⟩]).map Prod.snd) ∧
    (∀ fg, (none : Option MapObj) = some (.featureGroup fg) →
      _plot_folium true [⟨0, 1, 0, exData1⟩] none none "t" 1 true "c" 5 1 [] =
        .ok (.featureGroup ⟨fg.children ++ ([⟨0, 1, 0, exData1⟩] : List Row).map (fun r =>
          _make_folium_polyline r.data.geometry "c" 5 1 (popupValOf r none) [])⟩)) :=
  claim_C6_fit_bounds [⟨0, 1, 0, exData1⟩] none none "t" 1 "c" 5 1 [] (by decide) trivial

/-- C9 (amended): for any graph whose edge table carries at least one
geometry point (in particular at least one edge — the all-empty case fails
in the centroid computation instead, as the counterexample shows) and whose
rows carry the requested popup attribute, `plot_graph_folium` with no
preexisting map returns a newly created top-level map containing exactly one
polyline per graph edge, in edge order, each with the point count of its
source geometry. -/
theorem claim_C9_amended (G : MultiDiGraph) (pa : Option String) (t : String)
    (z : Int) (fb : Bool) (c : String) (w o : Int) (kw : List (String × String))
    (hpts : allPoints (graph_to_gdfs G) ≠ []) (hpa : popupOk (graph_to_gdfs G) pa) :
    ∃ fm : FoliumMap, plot_graph_folium true G none pa t z fb c w o kw = .ok (.map fm) ∧
      fm.children.length = G.edges.length ∧
      ∀ (j : Nat), j < G.edges.length →
        (fm.children[j]?).map (fun pl => pl.locations.length) =
          (G.edges[j]?).map (fun e => e.data.geometry.length) := by
  rcases unionCentroid_ok _ hpts with ⟨ctr, hctr⟩
  have hplot := plot_folium_ok (graph_to_gdfs G) none pa t z fb c w o kw ctr hctr hpa
  rcases applyFitBounds_cases fb (graph_to_gdfs G)
      (addPolylines (initialMap none ctr z t) ((graph_to_gdfs G).map (fun r =>
        _make_folium_polyline r.data.geometry c w o (popupValOf r pa) kw))) with
    ⟨fm, fbnds, hmo, hres⟩ | ⟨fg, hmo, hres⟩
  · have hchildren : fm.children = (graph_to_gdfs G).map (fun r =>
        _make_folium_polyline r.data.geometry c w o (popupValOf r pa) kw) := by
      have h1 := addPolylines_children (initialMap none ctr z t)
        ((graph_to_gdfs G).map (fun r =>
          _make_folium_polyline r.data.geometry c w o (popupValOf r pa) kw))
      rw [hmo] at h1
      simpa [MapObj.children, initialMap] using h1
    refine ⟨{ fm with fitted_bounds := fbnds }, ?_, ?_, ?_⟩
    · unfold plot_graph_folium
      rw [hplot, hres]
    · show fm.children.length = G.edges.length
      rw [hchildren]
      simp [graph_to_gdfs]
    · intro j hj
      show (fm.children[j]?).map (fun pl => pl.locations.length) = _
      rw [hchildren, List.getElem?_map]
      unfold graph_to_gdfs
      rw [List.getElem?_map]
      rw [List.getElem?_eq_getElem hj]
      simp [_make_folium_polyline]
  · exfalso
    have h1 := addPolylines_isTopLevel (initialMap none ctr z t)
      ((graph_to_gdfs G).map (fun r =>
        _make_folium_polyline r.data.geometry c w o (popupValOf r pa) kw))
    rw [hmo] at h1
    simp [MapObj.isTopLevel, initialMap] at h1

/-- C9 witness: the amended claim at a concrete graph with three edges. -/
theorem claim_C9_amended_witness :
    ∃ fm : FoliumMap, plot_graph_folium true exGraph none none "t" 1 true "c" 5 1 [] =
      .ok (.map fm) ∧
      fm.children.length = exGraph.edges.length ∧
      ∀ (j : Nat), j < exGraph.edges.length →
        (fm.children[j]?).map (fun pl => pl.locations.length) =
          (exGraph.edges[j]?).map (fun e => e.data.geometry.length) :=
  claim_C9_amended exGraph none "t" 1 true "c" 5 1 [] (by decide) trivial

theorem mem_of_getElem_opt {α : Type} (l : List α) (n : Nat) (a : α)
    (h : l[n]? = some a) : a ∈ l := by
  rcases List.getElem?_eq_some_iff.mp h with ⟨hl, hg⟩
  rw [← hg]
  exact List.getElem_mem hl

/-- C2: for a route of N ≥ 2 nodes over a well-formed graph in which every
consecutive pair has at least one parallel edge, all those parallel edges
carry `length`, geometries are nonempty and requested popup attributes are
present, `plot_route_folium` succeeds and draws exactly N − 1 polylines,
one per consecutive pair in route order; the j-th polyline is built from the
parallel edge of pair (route[j], route[j+1]) of minimum `length`, ties
resolved to the first minimum in adjacency iteration order. -/
theorem claim_C2_route_min_edges (G : MultiDiGraph) (route : List Node) (m : Option MapObj)
    (pa : Option String) (t : String) (z : Int) (fb : Bool) (c : String) (w o : Int)
    (kw : List (String × String))
    (hwf : G.wfKeys) (hN : 2 ≤ route.length)
    (hedges : ∀ p ∈ consecutivePairs route, G.adj p.1 p.2 ≠ [])
    (hlens : ∀ p ∈ consecutivePairs route, ∀ kd ∈ G.adj p.1 p.2,
      (kd.2.length).isSome = true)
    (hgeom : ∀ e ∈ G.edges, e.data.geometry ≠ [])
    (hattrs : ∀ e ∈ G.edges, ∀ a, pa = some a → (e.data.attrs.lookup a).isSome = true) :
    ∃ mres pls, plot_route_folium true G route m pa t z fb c w o kw = .ok mres ∧
      mres.children = initChildren m ++ pls ∧
      pls.length = route.length - 1 ∧
      ∀ (j : Nat), j < route.length - 1 →
        ∃ (i : Nat) (kd : EdgeKey × EdgeData),
          (G.adj route[j]! route[j + 1]!)[i]? = some kd ∧
          (∀ (j2 : Nat) (y : EdgeKey × EdgeData),
            (G.adj route[j]! route[j + 1]!)[j2]? = some y → lenD kd ≤ lenD y) ∧
          (∀ (j2 : Nat) (y : EdgeKey × EdgeData),
            j2 < i → (G.adj route[j]! route[j + 1]!)[j2]? = some y → lenD kd < lenD y) ∧
          pls[j]? = some (_make_folium_polyline kd.2.geometry c w o
            (popupValOf ⟨route[j]!, route[j + 1]!, kd.1, kd.2⟩ pa) kw) := by
  have hstepok : ∀ p ∈ consecutivePairs route, ∃ b, routeStep G p = .ok b := by
    intro p hp
    rcases minLengthKey_ok_spec (G.adj p.1 p.2) (hedges p hp) (hlens p hp) with
      ⟨i, kd, _, hok, _, _⟩
    exact ⟨(p.1, p.2, kd.1), by unfold routeStep; rw [hok]⟩
  rcases mapME_isOk (routeStep G) _ hstepok with ⟨uvk, huvk⟩
  rcases locTriples_route_ok G route uvk huvk with ⟨rows, hrows⟩
  have hrowmem : ∀ r ∈ rows, (⟨r.u, r.v, r.key, r.data⟩ : Edge) ∈ G.edges := by
    intro r hr
    rcases mapME_ok_mem _ _ rows hrows r hr with ⟨t2, ht2, hloc⟩
    unfold locStep at hloc
    cases hfind : (graph_to_gdfs (G.subgraph route)).find? (rowMatch t2) with
    | none => rw [hfind] at hloc; simp at hloc
    | some r2 =>
      rw [hfind] at hloc
      simp at hloc
      subst hloc
      exact (table_row_edge G route r2 (List.mem_of_find?_eq_some hfind)).1
  have hpaok : popupOk rows pa := by
    cases pa with
    | none => trivial
    | some a =>
      show ∀ r ∈ rows, (r.data.attrs.lookup a).isSome = true
      intro r hr
      exact hattrs ⟨r.u, r.v, r.key, r.data⟩ (hrowmem r hr) a rfl
  have hlenrows : rows.length = route.length - 1 := by
    have h1 := mapME_length _ _ _ hrows
    have h2 := mapME_length _ _ _ huvk
    rw [h1, h2, consecutivePairs_length]
  have hptsrows : allPoints rows ≠ [] := by
    cases hrc : rows with
    | nil =>
      rw [hrc] at hlenrows
      simp at hlenrows
      omega
    | cons r0 rest =>
      rw [allPoints_cons]
      exact List.append_ne_nil_of_left_ne_nil
        (hgeom ⟨r0.u, r0.v, r0.key, r0.data⟩ (hrowmem r0 (by rw [hrc]; simp))) _
  rcases unionCentroid_ok rows hptsrows with ⟨ctr, hctr⟩
  have hplot := plot_folium_ok rows m pa t z fb c w o kw ctr hctr hpaok
  refine ⟨applyFitBounds fb rows (addPolylines (initialMap m ctr z t)
      (rows.map (fun r => _make_folium_polyline r.data.geometry c w o (popupValOf r pa) kw))),
    rows.map (fun r =>
      _make_folium_polyline r.data.geometry c w o (popupValOf r pa) kw), ?_, ?_, ?_, ?_⟩
  · rw [plot_route_folium_eq_ok true G route m pa t z fb c w o kw uvk rows huvk hrows]
    exact hplot
  · rw [applyFitBounds_children, addPolylines_children, initialMap_children]
  · rw [List.length_map, hlenrows]
  · intro j hj
    have hj1 : j + 1 < route.length := by omega
    have hpj : (consecutivePairs route)[j]? = some (route[j]!, route[j + 1]!) :=
      consecutivePairs_getElem? route j hj1
    have hjuv : j < uvk.length := by
      have h2 := mapME_length _ _ _ huvk
      rw [h2, consecutivePairs_length]
      omega
    obtain ⟨t2, ht2⟩ : ∃ t2, uvk[j]? = some t2 := ⟨_, List.getElem?_eq_getElem hjuv⟩
    have hstep := mapME_getElem? _ _ _ huvk j _ _ hpj ht2
    have hpmem : ((route[j]!, route[j + 1]!) : Node × Node) ∈ consecutivePairs route :=
      mem_of_getElem_opt _ j _ hpj
    rcases minLengthKey_ok_spec (G.adj route[j]! route[j + 1]!)
      (hedges _ hpmem) (hlens _ hpmem) with ⟨i, kd, hadji, hok, hbd, hst⟩
    unfold routeStep at hstep
    rw [hok] at hstep
    simp at hstep
    have hjr : j < rows.length := by rw [hlenrows]; omega
    obtain ⟨r2, hr2⟩ : ∃ r2, rows[j]? = some r2 := ⟨_, List.getElem?_eq_getElem hjr⟩
    have hloc := mapME_getElem? _ _ _ hrows j _ _ ht2 hr2
    unfold locStep at hloc
    have hedge : (⟨route[j]!, route[j + 1]!, kd.1, kd.2⟩ : Edge) ∈ G.edges :=
      (adj_mem_iff G route[j]! route[j + 1]! kd.1 kd.2).mp (mem_of_getElem_opt _ i _ hadji)
    have humem : route[j]! ∈ route := by
      rw [getElem!_pos route j (by omega)]
      exact List.getElem_mem _
    have hvmem : route[j + 1]! ∈ route := by
      rw [getElem!_pos route (j + 1) hj1]
      exact List.getElem_mem _
    have hfind := table_find_eq G route ⟨route[j]!, route[j + 1]!, kd.1, kd.2⟩
      hwf hedge humem hvmem
    rw [← hstep] at hloc
    rw [hfind] at hloc
    simp at hloc
    refine ⟨i, kd, hadji, hbd, hst, ?_⟩
    rw [List.getElem?_map, hr2, ← hloc]
    rfl

/-- C2 witness: the route 0 → 1 → 2 over the sample graph. -/
theorem claim_C2_witness :
    ∃ mres pls, plot_route_folium true exGraph [0, 1, 2] none none "t" 1 true
        "c" 5 1 [] = .ok mres ∧
      mres.children = initChildren none ++ pls ∧
      pls.length = ([0, 1, 2] : List Node).length - 1 ∧
      ∀ (j : Nat), j < ([0, 1, 2] : List Node).length - 1 →
        ∃ (i : Nat) (kd : EdgeKey × EdgeData),
          (exGraph.adj ([0, 1, 2] : List Node)[j]! ([0, 1, 2] : List Node)[j + 1]!)[i]? =
            some kd ∧
          (∀ (j2 : Nat) (y : EdgeKey × EdgeData),
            (exGraph.adj ([0, 1, 2] : List Node)[j]!
              ([0, 1, 2] : List Node)[j + 1]!)[j2]? = some y → lenD kd ≤ lenD y) ∧
          (∀ (j2 : Nat) (y : EdgeKey × EdgeData), j2 < i →
            (exGraph.adj ([0, 1, 2] : List Node)[j]!
              ([0, 1, 2] : List Node)[j + 1]!)[j2]? = some y → lenD kd < lenD y) ∧
          pls[j]? = some (_make_folium_polyline kd.2.geometry "c" 5 1
            (popupValOf ⟨([0, 1, 2] : List Node)[j]!, ([0, 1, 2] : List Node)[j + 1]!,
              kd.1, kd.2⟩ none) []) :=
  claim_C2_route_min_edges exGraph [0, 1, 2] none none "t" 1 true "c" 5 1 []
    (by decide) (by decide) (by decide) (by decide) (by decide)
    (by intro e he a ha; cases ha)

/-! ### Losslessness of the JSON string encoding -/

theorem decodeHexDigit_hexDigitChar (k : Nat) (hk : k < 16) :
    decodeHexDigit (hexDigitChar k) = some k := by
  interval_cases k <;> rfl

theorem decodeHex4_digits (n : Nat) (hn : n < 65536) :
    decodeHex4 (hexDigitChar (n / 4096 % 16)) (hexDigitChar (n / 256 % 16))
      (hexDigitChar (n / 16 % 16)) (hexDigitChar (n % 16)) = some n := by
  unfold decodeHex4
  rw [decodeHexDigit_hexDigitChar _ (by omega), decodeHexDigit_hexDigitChar _ (by omega),
    decodeHexDigit_hexDigitChar _ (by omega), decodeHexDigit_hexDigitChar _ (by omega)]
  simp
  omega

theorem char_toNat_valid (c : Char) :
    c.toNat < 55296 ∨ (57343 < c.toNat ∧ c.toNat < 1114112) := by
  have h := c.valid
  unfold UInt32.isValidChar Nat.isValidChar at h
  exact h

theorem jsonDecodeAux_u_single (n : Nat) (a b c2 d : Char) (tail : List Char) (fuel : Nat)
    (hd : decodeHex4 a b c2 d = some n) (hn : n < 55296 ∨ (57343 < n ∧ n < 65536)) :
    jsonDecodeAux (fuel + 1) ('\\' :: 'u' :: a :: b :: c2 :: d :: tail) =
      (jsonDecodeAux fuel tail).map (fun l => Char.ofNat n :: l) := by
  simp [jsonDecodeAux, hd, hn]

theorem jsonDecodeAux_u_pair (n mm : Nat) (a b c2 d a2 b2 c3 d2 : Char)
    (tail : List Char) (fuel : Nat)
    (hd1 : decodeHex4 a b c2 d = some n) (hd2 : decodeHex4 a2 b2 c3 d2 = some mm)
    (hn : 55296 ≤ n ∧ n < 56320) (hm : 56320 ≤ mm ∧ mm < 57344) :
    jsonDecodeAux (fuel + 1)
        ('\\' :: 'u' :: a :: b :: c2 :: d :: '\\' :: 'u' :: a2 :: b2 :: c3 :: d2 :: tail) =
      (jsonDecodeAux fuel tail).map
        (fun l => Char.ofNat (65536 + (n - 55296) * 1024 + (mm - 56320)) :: l) := by
  have hna : ¬(n < 55296 ∨ (57343 < n ∧ n < 65536)) := by omega
  have hnb : n < 56320 := by omega
  simp [jsonDecodeAux, hd1, hd2, hna, hnb, hm]

theorem jsonDecodeAux_escapeChar (c : Char) (tail : List Char) (fuel : Nat) :
    jsonDecodeAux (fuel + 1) (escapeChar c ++ tail) =
      (jsonDecodeAux fuel tail).map (fun l => c :: l) := by
  by_cases h1 : c = '"'
  · subst h1
    simp [escapeChar, jsonDecodeAux]
  by_cases h2 : c = '\\'
  · subst h2
    simp [escapeChar, jsonDecodeAux]
  by_cases h3 : c = '\n'
  · subst h3
    simp [escapeChar, jsonDecodeAux]
  by_cases h4 : c = '\r'
  · subst h4
    simp [escapeChar, jsonDecodeAux]
  by_cases h5 : c = '\t'
  · subst h5
    simp [escapeChar, jsonDecodeAux]
  by_cases h6 : c.toNat = 8
  · have hc : c = Char.ofNat 8 := by rw [← Char.ofNat_toNat c, h6]
    subst hc
    simp [escapeChar, jsonDecodeAux]
  by_cases h7 : c.toNat = 12
  · have hc : c = Char.ofNat 12 := by rw [← Char.ofNat_toNat c, h7]
    subst hc
    simp [escapeChar, jsonDecodeAux]
  by_cases h8 : c.toNat < 32 ∨ (126 < c.toNat ∧ c.toNat < 65536)
  · have hesc : escapeChar c = uEscape4 c.toNat := by
      unfold escapeChar
      rw [if_neg h1, if_neg h2, if_neg h3, if_neg h4, if_neg h5, if_neg h6, if_neg h7,
        if_pos h8]
    have hcond : c.toNat < 55296 ∨ (57343 < c.toNat ∧ c.toNat < 65536) := by
      rcases char_toNat_valid c with h | h
      · omega
      · omega
    rw [hesc]
    unfold uEscape4
    simp only [List.cons_append, List.nil_append]
    rw [jsonDecodeAux_u_single c.toNat _ _ _ _ tail fuel
      (decodeHex4_digits c.toNat (by omega)) hcond]
    rw [Char.ofNat_toNat]
  by_cases h9 : 65536 ≤ c.toNat
  · have hesc : escapeChar c =
        uEscape4 (55296 + (c.toNat - 65536) / 1024) ++
          uEscape4 (56320 + (c.toNat - 65536) % 1024) := by
      unfold escapeChar
      rw [if_neg h1, if_neg h2, if_neg h3, if_neg h4, if_neg h5, if_neg h6, if_neg h7,
        if_neg h8, if_pos h9]
    have hub : c.toNat < 1114112 := by
      rcases char_toNat_valid c with h | h
      · omega
      · omega
    rw [hesc]
    unfold uEscape4
    simp only [List.cons_append, List.nil_append]
    rw [jsonDecodeAux_u_pair (55296 + (c.toNat - 65536) / 1024)
      (56320 + (c.toNat - 65536) % 1024) _ _ _ _ _ _ _ _ tail fuel
      (decodeHex4_digits _ (by omega)) (decodeHex4_digits _ (by omega))
      (by omega) (by omega)]
    have harith : 65536 + (55296 + (c.toNat - 65536) / 1024 - 55296) * 1024 +
        (56320 + (c.toNat - 65536) % 1024 - 56320) = c.toNat := by omega
    rw [harith, Char.ofNat_toNat]
  · have hesc : escapeChar c = [c] := by
      unfold escapeChar
      rw [if_neg h1, if_neg h2, if_neg h3, if_neg h4, if_neg h5, if_neg h6, if_neg h7,
        if_neg h8, if_neg h9]
    rw [hesc]
    simp [jsonDecodeAux, h1, h2]

theorem escapeChar_length_pos (c : Char) : 1 ≤ (escapeChar c).length := by
  unfold escapeChar
  split_ifs <;> simp [uEscape4]

theorem length_le_escape_flatten :
    ∀ cs : List Char, cs.length ≤ ((cs.map escapeChar).flatten).length := by
  intro cs
  induction cs with
  | nil => simp
  | cons c rest ih =>
    have hp := escapeChar_length_pos c
    simp only [List.map, List.flatten, List.length_append, List.length_cons]
    omega

theorem jsonDecodeAux_encodeBody (cs : List Char) :
    ∀ k : Nat, jsonDecodeAux (cs.length + k + 1) ((cs.map escapeChar).flatten ++ ['"']) =
      some cs := by
  induction cs with
  | nil =>
    intro k
    simp [jsonDecodeAux]
  | cons c rest ih =>
    intro k
    have hshape : (((c :: rest).map escapeChar).flatten ++ ['"']) =
        escapeChar c ++ ((rest.map escapeChar).flatten ++ ['"']) := by simp
    have hfuel : (c :: rest).length + k + 1 = (rest.length + k + 1) + 1 := by
      simp
      omega
    rw [hshape, hfuel, jsonDecodeAux_escapeChar, ih k]
    rfl

/-- The JSON string payload is lossless: decoding the `json.dumps` encoding
of any string yields the string back. -/
theorem json_loads_dumps (s : String) : json_loads (json_dumps s) = some s := by
  have hbody : (json_dumps s).data =
      '"' :: ((s.data.map escapeChar).flatten ++ ['"']) := by
    unfold json_dumps
    simp
  unfold json_loads
  rw [hbody]
  show (jsonDecodeAux (((s.data.map escapeChar).flatten ++ ['"']).length + 1)
      ((s.data.map escapeChar).flatten ++ ['"'])).map (fun l => (⟨l⟩ : String)) = some s
  have hlen := length_le_escape_flatten s.data
  have hfuel : ((s.data.map escapeChar).flatten ++ ['"']).length + 1 =
      s.data.length + (((s.data.map escapeChar).flatten).length + 1 - s.data.length) + 1 := by
    rw [List.length_append]
    simp only [List.length_cons, List.length_nil]
    omega
  rw [hfuel, jsonDecodeAux_encodeBody s.data _]
  rfl

/-- C3: when `popup_attribute` is None no constructed polyline carries a
popup; when it is set, each polyline's popup payload is the quoted/escaped
`json.dumps` serialization of its row's attribute value, and decoding the
payload yields back exactly the source attribute value of that row. -/
theorem claim_C3_popup_payload (gdf : List Row) (m : Option MapObj) (pa : Option String)
    (t : String) (z : Int) (fb : Bool) (c : String) (w o : Int)
    (kw : List (String × String)) (hpts : allPoints gdf ≠ []) (hpa : popupOk gdf pa) :
    ∃ mres pls, _plot_folium true gdf m pa t z fb c w o kw = .ok mres ∧
      mres.children = initChildren m ++ pls ∧
      pls.length = gdf.length ∧
      (pa = none → ∀ pl ∈ pls, pl.popup = none) ∧
      (∀ a, pa = some a → ∀ (j : Nat) (r : Row), gdf[j]? = some r →
        ∃ v, r.data.attrs.lookup a = some v ∧
          (pls[j]?).map PolyLine.popup = some (some ⟨json_dumps v⟩) ∧
          json_loads (json_dumps v) = some v) := by
  rcases unionCentroid_ok _ hpts with ⟨ctr, hctr⟩
  have hplot := plot_folium_ok gdf m pa t z fb c w o kw ctr hctr hpa
  refine ⟨_, gdf.map (fun r =>
    _make_folium_polyline r.data.geometry c w o (popupValOf r pa) kw),
    hplot, ?_, ?_, ?_, ?_⟩
  · rw [applyFitBounds_children, addPolylines_children, initialMap_children]
  · simp
  · intro hnone pl hmem
    subst hnone
    rcases List.mem_map.mp hmem with ⟨r, _, hr⟩
    rw [← hr]
    rfl
  · intro a ha j r hj
    subst ha
    have hlook : (r.data.attrs.lookup a).isSome = true :=
      hpa r (mem_of_getElem_opt _ j _ hj)
    rcases Option.isSome_iff_exists.mp hlook with ⟨v, hv⟩
    refine ⟨v, hv, ?_, json_loads_dumps v⟩
    rw [List.getElem?_map, hj]
    simp [_make_folium_polyline, popupValOf, hv]

/-- C3 witness: a one-row table with a requested popup attribute. -/
theorem claim_C3_witness :
    ∃ mres pls, _plot_folium true [⟨0, 1, 0, exData1⟩] none (some "name") "t" 1 true
        "c" 5 1 [] = .ok mres ∧
      mres.children = initChildren none ++ pls ∧
      pls.length = ([⟨0, 1, 0, exData1⟩] : List Row).length ∧
      ((some "name" : Option String) = none → ∀ pl ∈ pls, pl.popup = none) ∧
      (∀ a, (some "name" : Option String) = some a → ∀ (j : Nat) (r : Row),
        ([⟨0, 1, 0, exData1⟩] : List Row)[j]? = some r →
        ∃ v, r.data.attrs.lookup a = some v ∧
          (pls[j]?).map PolyLine.popup = some (some ⟨json_dumps v⟩) ∧
          json_loads (json_dumps v) = some v) :=
  claim_C3_popup_payload [⟨0, 1, 0, exData1⟩] none (some "name") "t" 1 true "c" 5 1 []
    (by decide) (by decide)

end Osmnx
